import Mathlib

/-!
Verification of the poll codec and reaction-finalization handler of the
`discord-vc-vote-move` bot (`src/event_handler.rs`, `src/app_config.rs`).

The embedding models message text as `List Char`.  User, channel, guild and
message identifiers are `Nat` (Discord snowflakes are `u64`; the `u64`
overflow bound is made explicit where the code parses them with `from_str`).

The Rust code matches poll messages with the regex built in `Handler::new`:
the vote template with slots replaced by the patterns for a user mention,
a channel mention or a new-VC phrase, and a digit run, anchored at the end
of the text.  The scan below implements exactly that regex's leftmost-first
semantics for this fixed pattern.  The source regex's Unicode-aware digit
class is modelled as ASCII digits; the two coincide on every rendered
message, and `u64::from_str` rejects non-ASCII digits anyway.
-/

/-- Template piece between the requester-mention slot and the target slot of
`vote_message` in `Handler::new`. -/
def vmA : List Char := "が一緒に移動する人の募集を開始しました。\n".data

/-- Template piece between the target slot and the minutes slot. -/
def vmB : List Char := "に移動したい人は".data

/-- Template piece after the minutes slot, up to the end of the message. -/
def vmC : List Char := "分以内にリアクション押してください！".data

/-- Literal opening of the new-VC phrase produced by `CommandType::to_string`. -/
def kOpen : List Char := "新規VC「".data

/-- The substring tested by `message.content.contains(..)` in `on_move_reaction`. -/
def marker : List Char := "一緒に移動する人の募集を開始しました".data

/-- Little-endian decimal digits of `n`, with explicit fuel so that the
definition reduces inside the kernel; `natDigitsRev_eq_digits` relates it to
`Nat.digits`. -/
def natDigitsRev (fuel n : Nat) : List Char :=
  match fuel with
  | 0 => []
  | f + 1 => if n = 0 then [] else Char.ofNat (48 + n % 10) :: natDigitsRev f (n / 10)

/-- Decimal rendering of a `u64` as Rust's `Display` prints it
(`interaction.user.mention()`, `channel_id.mention()`, `to_string()` of the
timeout): most-significant digit first, `"0"` for zero. -/
def natDigits (n : Nat) : List Char :=
  if n = 0 then ['0'] else (natDigitsRev n n).reverse

/-- The two command shapes encoded in the poll message (`enum CommandType`). -/
inductive CommandType
  | Move (channel_name : List Char)
  | MoveTo (channel_id : Nat)
deriving DecidableEq

/-- `CommandType::to_string`: the target slot's rendering — a channel mention
for `MoveTo`, the `新規VC「..」` phrase for `Move`. -/
def CommandType.to_string : CommandType → List Char
  | CommandType.Move channel_name => kOpen ++ channel_name ++ ['」']
  | CommandType.MoveTo channel_id => '<' :: '#' :: (natDigits channel_id ++ ['>'])

/-- A user mention as serenity renders it: `<@id>`. -/
def userMention (id : Nat) : List Char := '<' :: '@' :: (natDigits id ++ ['>'])

/-- The rendered vote message: `self.vote_message.format(..)` in
`on_move_command` with the requester mention, the target text and the
timeout minutes substituted into the three slots. -/
def render_vote_message (requester : Nat) (t : CommandType) (minutes : Nat) : List Char :=
  userMention requester ++ vmA ++ t.to_string ++ vmB ++ natDigits minutes ++ vmC

/-- Raw capture of the target slot: group 2 (`<#(\d+)>`) or group 3
(`新規VC「(.+)」`) of the vote-message regex. -/
inductive RawTarget
  | chan (ds : List Char)
  | named (nm : List Char)
deriving DecidableEq

/-- The capture groups of a successful regex match: group 1 (the requester's
digits) and whichever target group participated. -/
structure Caps where
  g1 : List Char
  tgt : RawTarget
deriving DecidableEq

/-- Strip an expected literal off the front of the text; `none` when the text
does not start with it. -/
def stripLit : List Char → List Char → Option (List Char)
  | [], s => some s
  | _ :: _, [] => none
  | a :: lit, b :: s => if a = b then stripLit lit s else none

/-- Greedy match of a nonempty digit run (`\d+` followed by a non-digit). -/
def matchDigits (s : List Char) : Option (List Char × List Char) :=
  let ds := s.takeWhile Char.isDigit
  if ds.isEmpty then none else some (ds, s.dropWhile Char.isDigit)

/-- The tail of the pattern after the target slot: literal `vmB`, a digit run
(the non-capturing minutes group), then literal `vmC` ending exactly at the
end of the text (the regex's `$` anchor). -/
def tailOk (s : List Char) : Bool :=
  match stripLit vmB s with
  | none => false
  | some r =>
    let ds := r.takeWhile Char.isDigit
    if ds.isEmpty then false else decide (r.dropWhile Char.isDigit = vmC)

/-- After the `(.+)` capture: the closing `」` followed by the pattern tail. -/
def closeTail (s : List Char) : Bool :=
  match stripLit ['」'] s with
  | none => false
  | some rest => tailOk rest

/-- Whether cutting the name capture after `i` characters yields a match:
`(.+)` needs at least one character, none of them a newline (Rust's `.`),
and the remainder must be the closing bracket plus the pattern tail. -/
def splitOk (r : List Char) (i : Nat) : Bool :=
  if i = 0 then false
  else if (r.take i).all (fun c => decide (c ≠ '\n')) then closeTail (r.drop i) else false

/-- Greedy backtracking of `(.+)`: the largest cut `≤ n` that completes the
match, mirroring the regex engine shrinking a maximal `.+` capture. -/
def greedyFrom (r : List Char) : Nat → Option Nat
  | 0 => none
  | i + 1 => if splitOk r (i + 1) then some (i + 1) else greedyFrom r i

/-- The text captured by `(.+)` in `新規VC「(.+)」..$`, if any. -/
def matchNamed (r : List Char) : Option (List Char) :=
  match greedyFrom r r.length with
  | none => none
  | some i => some (r.take i)

/-- First alternative of the target slot: a channel mention `<#(\d+)>`
followed by the pattern tail. -/
def matchChanBranch (r4 : List Char) : Option RawTarget :=
  match stripLit ['<', '#'] r4 with
  | none => none
  | some r5 =>
    match matchDigits r5 with
    | none => none
    | some (ds, r6) =>
      match stripLit ['>'] r6 with
      | none => none
      | some r7 => if tailOk r7 then some (RawTarget.chan ds) else none

/-- Second alternative of the target slot: the `新規VC「(.+)」` phrase
followed by the pattern tail. -/
def matchNamedBranch (r4 : List Char) : Option RawTarget :=
  match stripLit kOpen r4 with
  | none => none
  | some r7 =>
    match matchNamed r7 with
    | none => none
    | some nm => some (RawTarget.named nm)

/-- The target alternation, leftmost-first: the channel-mention branch is
tried before the new-VC branch, as in the source pattern. -/
def matchTarget (g1 r4 : List Char) : Option Caps :=
  match matchChanBranch r4 with
  | some t => some ⟨g1, t⟩
  | none =>
    match matchNamedBranch r4 with
    | some t => some ⟨g1, t⟩
    | none => none

/-- Attempt the whole pattern anchored at the current position: `<@(\d+)>`,
the literal `vmA`, then the target slot and the pattern tail. -/
def matchAt (s : List Char) : Option Caps :=
  match stripLit ['<', '@'] s with
  | none => none
  | some r1 =>
    match matchDigits r1 with
    | none => none
    | some (g1, r2) =>
      match stripLit ('>' :: vmA) r2 with
      | none => none
      | some r4 => matchTarget g1 r4

/-- `Regex::captures`: try the pattern at every position, leftmost first. -/
def scanAll : List Char → Option Caps
  | [] => matchAt []
  | c :: rest =>
    match matchAt (c :: rest) with
    | some caps => some caps
    | none => scanAll rest

/-- `caps.get(2)`: the channel-mention capture, when that branch matched. -/
def capGet2 : Caps → Option (List Char)
  | ⟨_, RawTarget.chan ds⟩ => some ds
  | _ => none

/-- `caps.get(3)`: the new-VC name capture, when that branch matched. -/
def capGet3 : Caps → Option (List Char)
  | ⟨_, RawTarget.named nm⟩ => some nm
  | _ => none

/-- Decimal value of a digit string, as `u64::from_str` computes it. -/
def digitsToNat (ds : List Char) : Nat :=
  ds.foldl (fun a c => a * 10 + (c.toNat - 48)) 0

/-- `u64::from_str` on a captured group: a nonempty ASCII-digit run whose
value fits in 64 bits. -/
def parseU64 (ds : List Char) : Option Nat :=
  if ds.isEmpty then none
  else if ds.all Char.isDigit then
    if digitsToNat ds < 2 ^ 64 then some (digitsToNat ds) else none
  else none

/-- `CommandType::parse`: channel-mention capture first (`ChannelId::from_str`),
falling back to the name capture. -/
def CommandType.parse (move_to_match : Option (List Char)) (move_match : Option (List Char)) :
    Option CommandType :=
  (move_to_match.bind (fun m => (parseU64 m).map CommandType.MoveTo)).orElse
    (fun _ => move_match.map CommandType.Move)

/-- The composite codec-level parse: run the regex, read the requester id from
group 1 and the target from groups 2/3, exactly as `on_move_reaction`
composes these steps. -/
def parseVote (s : List Char) : Option (Nat × CommandType) :=
  match scanAll s with
  | none => none
  | some caps =>
    match parseU64 caps.g1 with
    | none => none
    | some uid =>
      match CommandType.parse (capGet2 caps) (capGet3 caps) with
      | none => none
      | some t => some (uid, t)

/-- The Discord-related configuration consumed by the handler
(`struct DiscordConfig` in `app_config.rs`). -/
structure DiscordConfig where
  move_timeout_minutes : Nat
  move_wait_seconds : Nat
  vc_create_channel : Nat
  vc_category : Nat
  vc_ignored_channels : List Nat
deriving DecidableEq

/-- The fetched poll message: its author's id and its text. -/
structure Msg where
  author : Nat
  content : List Char
deriving DecidableEq

/-- One remote call observable from outside the handler.  Relocations and the
rename and deletion are recorded as the attempt being issued; whether the
platform accepted it is a separate field of the `World`. -/
inductive Effect
  | moveMember (user chan : Nat)
  | sleep (secs : Nat)
  | rename (chan : Nat) (name : List Char)
  | deleteMsg
  | sendSummary (requester : Nat) (count : Nat) (dest : Nat) (listed : List Nat)
deriving DecidableEq

/-- One constructor per `?`-propagated failure site of `on_move_reaction`,
in source order. -/
inductive HandlerErr
  | messageFetchFailed
  | userIdFailed
  | parseFailed
  | mentionUserFailed
  | mentionChannelFailed
  | guildIdMissing
  | guildNotCached
  | notInVoiceChannel
  | voiceChannelIdFailed
  | reactionUsersFailed
  | channelFetchFailed
  | dmChannel
  | permFetchFailed
  | noConnectPermission
  | memberFetchFailed
  | moveFailed
  | guildNotCachedAfter
  | notInVoiceAfter
  | voiceIdFailedAfter
  | ignoredChannel
  | channelFetchFailedAfter
  | notGuildChannel
  | wrongCategory
  | renameFailed
  | membersFetchFailed
  | deleteFailed
  | sendFailed
deriving DecidableEq

/-- What a guild channel looks like when fetched: `channel.parent_id`. -/
structure ChanInfo where
  parent_id : Option Nat
deriving DecidableEq

/-- The platform state a single `on_move_reaction` run observes.  Each field
is the reply of one kind of remote call; fallible calls reply with `Option`.
`voice_states u` is `none` when the guild has no voice state for `u`, and
`some cid?` mirrors `VoiceState.channel_id` being itself optional.
`voice_states_after` is the fresh snapshot re-read after the settle sleep in
the `Move` branch.  `channels c` is `none` when `to_channel` fails and
`some none` when the channel is not a guild channel (`.guild()` fails). -/
structure World where
  current_user_id : Nat
  message : Option Msg
  reaction_user_id : Option Nat
  reaction_guild_id : Option Nat
  guild_cached : Bool
  voice_states : Nat → Option (Option Nat)
  reaction_users : Option (List Nat)
  channels : Nat → Option (Option ChanInfo)
  perm_fetch : Nat → Nat → Option Bool
  member_fetch_ok : Nat → Bool
  move_ok : Nat → Nat → Bool
  guild_cached_after : Bool
  voice_states_after : Nat → Option (Option Nat)
  rename_ok : Bool
  delete_ok : Bool
  send_ok : Bool
  config : DiscordConfig

/-- Substring test, as `str::contains` with a nonempty pattern. -/
def matchesAt (pat s : List Char) : Bool := (stripLit pat s).isSome

/-- Substring test over every position. -/
def containsSeq (pat : List Char) : List Char → Bool
  | [] => matchesAt pat []
  | c :: rest => matchesAt pat (c :: rest) || containsSeq pat rest

/-- `usize` subtraction as release-mode Rust computes it: wrapping modulo
`2^64` (a debug build would panic on underflow instead). -/
def usizeSub (a b : Nat) : Nat := (a + (2 ^ 64 - b)) % 2 ^ 64

/-- The destination-resolution `match` of `on_move_reaction` (lines 358-442):
permission check for `MoveTo`; for `Move`, the staging move of the requester,
the settle sleep, the re-read of the requester's room, the ignore-list and
category checks, and the rename. -/
def resolveDest (w : World) (user_id : Nat) : CommandType → Except HandlerErr Nat × List Effect
  | CommandType.MoveTo channel_id =>
    match w.channels channel_id with
    | none => (.error .channelFetchFailed, [])
    | some none => (.error .dmChannel, [])
    | some (some _) =>
      match w.perm_fetch user_id channel_id with
      | none => (.error .permFetchFailed, [])
      | some false => (.error .noConnectPermission, [])
      | some true => (.ok channel_id, [])
  | CommandType.Move channel_name =>
    if ¬ w.member_fetch_ok user_id then (.error .memberFetchFailed, [])
    else
      let eff0 := [Effect.moveMember user_id w.config.vc_create_channel]
      if ¬ w.move_ok user_id w.config.vc_create_channel then (.error .moveFailed, eff0)
      else
        let eff1 := eff0 ++ [Effect.sleep w.config.move_wait_seconds]
        if ¬ w.guild_cached_after then (.error .guildNotCachedAfter, eff1)
        else
          match w.voice_states_after user_id with
          | none => (.error .notInVoiceAfter, eff1)
          | some none => (.error .voiceIdFailedAfter, eff1)
          | some (some voice_channel_id) =>
            if w.config.vc_ignored_channels.contains voice_channel_id then
              (.error .ignoredChannel, eff1)
            else
              match w.channels voice_channel_id with
              | none => (.error .channelFetchFailedAfter, eff1)
              | some none => (.error .notGuildChannel, eff1)
              | some (some ch) =>
                if ch.parent_id ≠ some w.config.vc_category then (.error .wrongCategory, eff1)
                else
                  let eff2 := eff1 ++ [Effect.rename voice_channel_id channel_name]
                  if ¬ w.rename_ok then (.error .renameFailed, eff2)
                  else (.ok voice_channel_id, eff2)

/-- The migration tail of `on_move_reaction` (lines 444-492): collect the
reactors that have a voice state in the original guild snapshot, fetch them
all (`try_join_all`, failing as a whole if any fetch fails), issue one
relocation per member with the result discarded (`let _ = ..`), delete the
poll message, and post the summary naming the requester, `members.len() - 1`
and the full member list. -/
def finishMove (w : World) (reaction_users : List Nat) (mention_user to_channel_id : Nat) :
    Except HandlerErr Unit × List Effect :=
  let members := reaction_users.filter (fun u => (w.voice_states u).isSome)
  if ¬ members.all (fun u => w.member_fetch_ok u) then (.error .membersFetchFailed, [])
  else
    let effD := members.map (fun u => Effect.moveMember u to_channel_id) ++ [Effect.deleteMsg]
    if ¬ w.delete_ok then (.error .deleteFailed, effD)
    else
      let effS := effD ++
        [Effect.sendSummary mention_user (usizeSub members.length 1) to_channel_id members]
      if ¬ w.send_ok then (.error .sendFailed, effS)
      else (.ok (), effS)

/-- `Handler::on_move_reaction`, filters in source order.  The triggering
reaction's emoji is part of the event but — exactly as in the source — is
never inspected; only the hard-coded `'🤚'` is used when the reactor list is
fetched, which the `World`'s `reaction_users` field models. -/
def on_move_reaction (w : World) (_emoji : Char) : Except HandlerErr Unit × List Effect :=
  match w.message with
  | none => (.error .messageFetchFailed, [])
  | some message =>
    if message.author ≠ w.current_user_id then (.ok (), [])
    else if ¬ containsSeq marker message.content then (.ok (), [])
    else
      match w.reaction_user_id with
      | none => (.error .userIdFailed, [])
      | some user_id =>
        match scanAll message.content with
        | none => (.error .parseFailed, [])
        | some caps =>
          match parseU64 caps.g1 with
          | none => (.error .mentionUserFailed, [])
          | some mention_user =>
            if mention_user ≠ user_id then (.ok (), [])
            else
              match CommandType.parse (capGet2 caps) (capGet3 caps) with
              | none => (.error .mentionChannelFailed, [])
              | some mention_channel =>
                match w.reaction_guild_id with
                | none => (.error .guildIdMissing, [])
                | some _ =>
                  if ¬ w.guild_cached then (.error .guildNotCached, [])
                  else
                    match w.voice_states user_id with
                    | none => (.error .notInVoiceChannel, [])
                    | some none => (.error .voiceChannelIdFailed, [])
                    | some (some _) =>
                      match w.reaction_users with
                      | none => (.error .reactionUsersFailed, [])
                      | some ru =>
                        let reaction_users := ru.filter (fun u => u ≠ w.current_user_id)
                        match resolveDest w user_id mention_channel with
                        | (.error e, eff) => (.error e, eff)
                        | (.ok to_channel_id, eff) =>
                          let (res2, eff2) :=
                            finishMove w reaction_users mention_user to_channel_id
                          (res2, eff ++ eff2)

/-- A log line emitted with `error!`. -/
inductive LogEntry
  | deleteFailedLog
deriving DecidableEq

/-- The background task spawned by `on_move_command` (lines 259-273): sleep
for the timeout, attempt the deletion once, and on failure only log — the
task has no channel back to the requester, so nothing is ever surfaced. -/
def timeout_delete_task (minutes : Nat) (delete_ok : Bool) : List Effect × Option LogEntry :=
  ([Effect.sleep (60 * minutes), Effect.deleteMsg],
    if delete_ok then none else some LogEntry.deleteFailedLog)

/-- `EventHandler::reaction_add`: run the handler; an `Err` is only written to
the log (`error!`), never sent anywhere the requester could see it. -/
def reaction_add (w : World) (emoji : Char) : List Effect × Option HandlerErr :=
  match on_move_reaction w emoji with
  | (.ok _, eff) => (eff, none)
  | (.error e, eff) => (eff, some e)

/-! ### Concrete scenario worlds -/

/-- Demo configuration: 5-minute timeout, 3-second settle, staging channel 30,
category 40, ignored channel 31. -/
def cfgDemo : DiscordConfig := ⟨5, 3, 30, 40, [31]⟩

/-- Poll text for `move_to <#7>` requested by user 1. -/
def contentMoveTo : List Char := render_vote_message 1 (CommandType.MoveTo 7) 5

/-- Poll text for `move "部屋"` requested by user 1. -/
def contentMove : List Char := render_vote_message 1 (CommandType.Move "部屋".data) 5

/-- Base scenario: bot 99 authored the `move_to` poll of requester 1; users
1, 2, 3 are in voice channel 20 and all reacted; destination channel 7 sits
in category 40 and everyone may connect; the platform accepts every remote
call except relocating user 3; after the settle wait the requester would be
found in channel 21 (category 40); channel 22 is outside the category. -/
def wBase : World where
  current_user_id := 99
  message := some ⟨99, contentMoveTo⟩
  reaction_user_id := some 1
  reaction_guild_id := some 50
  guild_cached := true
  voice_states := fun u => if u = 1 ∨ u = 2 ∨ u = 3 then some (some 20) else none
  reaction_users := some [1, 2, 3]
  channels := fun c =>
    if c = 7 then some (some ⟨some 40⟩)
    else if c = 21 then some (some ⟨some 40⟩)
    else if c = 22 then some (some ⟨some 99⟩)
    else none
  perm_fetch := fun _ _ => some true
  member_fetch_ok := fun _ => true
  move_ok := fun u _ => decide (u ≠ 3)
  guild_cached_after := true
  voice_states_after := fun u => if u = 1 then some (some 21) else none
  rename_ok := true
  delete_ok := true
  send_ok := true
  config := cfgDemo


/-- `move "部屋"` poll in the base scenario, with the post-settle re-read
finding the requester in channel 22, whose parent category is 99 ≠ 40. -/
def wC2 : World :=
  { wBase with
    message := some ⟨99, contentMove⟩
    voice_states_after := fun u => if u = 1 then some (some 22) else none }

/-- `move "部屋"` poll in the base scenario with a clean claim: the re-read
finds the requester in channel 21, inside category 40. -/
def wC8 : World := { wBase with message := some ⟨99, contentMove⟩ }

/-! ### Codec lemmas -/

theorem stripLit_self (lit r : List Char) : stripLit lit (lit ++ r) = some r := by
  induction lit with
  | nil => rfl
  | cons a t ih => simp [stripLit, ih]

theorem takeWhile_append_all {p : Char → Bool} {l1 l2 : List Char}
    (h1 : ∀ c ∈ l1, p c = true) (h2 : ∀ c, l2.head? = some c → p c = false) :
    (l1 ++ l2).takeWhile p = l1 := by
  induction l1 with
  | nil =>
    cases l2 with
    | nil => rfl
    | cons c t => simp [List.takeWhile, h2 c rfl]
  | cons a t ih =>
    have ha : p a = true := h1 a (by simp)
    simp only [List.cons_append, List.takeWhile, ha]
    rw [show t.append l2 = t ++ l2 from rfl, ih (fun c hc => h1 c (by simp [hc]))]

theorem dropWhile_append_all {p : Char → Bool} {l1 l2 : List Char}
    (h1 : ∀ c ∈ l1, p c = true) (h2 : ∀ c, l2.head? = some c → p c = false) :
    (l1 ++ l2).dropWhile p = l2 := by
  induction l1 with
  | nil =>
    cases l2 with
    | nil => rfl
    | cons c t => simp [List.dropWhile, h2 c rfl]
  | cons a t ih =>
    have ha : p a = true := h1 a (by simp)
    simp only [List.cons_append, List.dropWhile, ha]
    exact ih (fun c hc => h1 c (by simp [hc]))

theorem matchDigits_spec {ds rest : List Char} (hds : ds ≠ [])
    (hall : ∀ c ∈ ds, c.isDigit = true)
    (hrest : ∀ c, rest.head? = some c → c.isDigit = false) :
    matchDigits (ds ++ rest) = some (ds, rest) := by
  have hemp : ds.isEmpty = false := by cases ds with | nil => exact absurd rfl hds | cons => rfl
  simp only [matchDigits, takeWhile_append_all hall hrest, dropWhile_append_all hall hrest,
    hemp, Bool.false_eq_true, if_false]

theorem natDigitsRev_eq (fuel : Nat) :
    ∀ n, n ≤ fuel →
      natDigitsRev fuel n = (Nat.digits 10 n).map (fun d => Char.ofNat (48 + d)) := by
  induction fuel with
  | zero =>
    intro n hn
    have : n = 0 := Nat.le_zero.mp hn
    subst this
    simp [natDigitsRev]
  | succ f ih =>
    intro n hn
    by_cases h0 : n = 0
    · subst h0; simp [natDigitsRev]
    · have hdiv : n / 10 ≤ f := by
        have := Nat.div_lt_self (Nat.pos_of_ne_zero h0) (by norm_num : 1 < 10)
        omega
      rw [natDigitsRev, if_neg h0, ih (n / 10) hdiv,
        Nat.digits_def' (by norm_num : 1 < 10) (Nat.pos_of_ne_zero h0)]
      simp

theorem natDigits_eq (n : Nat) :
    natDigits n =
      if n = 0 then ['0'] else ((Nat.digits 10 n).map (fun d => Char.ofNat (48 + d))).reverse := by
  by_cases h0 : n = 0
  · simp [natDigits, h0]
  · simp [natDigits, h0, natDigitsRev_eq n n le_rfl]

theorem digitChar_isDigit {d : Nat} (h : d < 10) : (Char.ofNat (48 + d)).isDigit = true := by
  interval_cases d <;> decide

theorem digitChar_toNat {d : Nat} (h : d < 10) : (Char.ofNat (48 + d)).toNat = 48 + d := by
  interval_cases d <;> decide

theorem ne_of_isDigit {c x : Char} (hc : c.isDigit = true) (hx : x.isDigit = false) : c ≠ x := by
  intro e
  rw [e, hx] at hc
  exact Bool.false_ne_true hc

theorem natDigits_all_digit (n : Nat) : ∀ c ∈ natDigits n, c.isDigit = true := by
  intro c hc
  rw [natDigits_eq] at hc
  by_cases h0 : n = 0
  · rw [if_pos h0] at hc
    simp only [List.mem_singleton] at hc
    subst hc; decide
  · rw [if_neg h0] at hc
    simp only [List.mem_reverse, List.mem_map] at hc
    obtain ⟨d, hd, rfl⟩ := hc
    exact digitChar_isDigit (Nat.digits_lt_base (by norm_num) hd)

theorem natDigits_ne_nil (n : Nat) : natDigits n ≠ [] := by
  rw [natDigits_eq]
  by_cases h0 : n = 0
  · simp [h0]
  · simp only [if_neg h0, ne_eq, List.reverse_eq_nil_iff, List.map_eq_nil_iff]
    exact Nat.digits_ne_nil_iff_ne_zero.mpr h0

theorem ofDigits_foldr (l : List Nat) (h : ∀ d ∈ l, d < 10) :
    l.foldr (fun d a => a * 10 + ((Char.ofNat (48 + d)).toNat - 48)) 0 = Nat.ofDigits 10 l := by
  induction l with
  | nil => simp [Nat.ofDigits_nil]
  | cons d t ih =>
    rw [List.foldr_cons, ih (fun x hx => h x (by simp [hx])),
      digitChar_toNat (h d (by simp)), Nat.ofDigits_cons]
    ring_nf
    omega

theorem digitsToNat_natDigits (n : Nat) : digitsToNat (natDigits n) = n := by
  rw [natDigits_eq]
  by_cases h0 : n = 0
  · subst h0; decide
  · rw [if_neg h0]
    unfold digitsToNat
    rw [List.foldl_reverse, List.foldr_map,
      ofDigits_foldr _ (fun d hd => Nat.digits_lt_base (by norm_num) hd)]
    exact_mod_cast Nat.ofDigits_digits 10 n

theorem parseU64_natDigits {n : Nat} (h : n < 2 ^ 64) : parseU64 (natDigits n) = some n := by
  have hemp : (natDigits n).isEmpty = false := by
    cases he : natDigits n with
    | nil => exact absurd he (natDigits_ne_nil n)
    | cons => rfl
  have hall : (natDigits n).all Char.isDigit = true :=
    List.all_eq_true.mpr (fun c hc => natDigits_all_digit n c hc)
  rw [parseU64, hemp, hall]
  simp only [Bool.false_eq_true, if_false, if_true, digitsToNat_natDigits, h]

theorem head_isDigit_false_vmC : ∀ c, vmC.head? = some c → c.isDigit = false := by
  intro c hc
  simp only [vmC] at hc
  rw [show ("分以内にリアクション押してください！".data.head?) = some '分' from rfl] at hc
  cases hc
  decide

theorem tailOk_digits {dm : List Char} (h1 : dm ≠ []) (h2 : ∀ c ∈ dm, c.isDigit = true) :
    tailOk (vmB ++ (dm ++ vmC)) = true := by
  have hemp : dm.isEmpty = false := by cases dm with | nil => exact absurd rfl h1 | cons => rfl
  rw [tailOk, stripLit_self]
  simp only [takeWhile_append_all h2 head_isDigit_false_vmC,
    dropWhile_append_all h2 head_isDigit_false_vmC, hemp]
  simp

theorem closeTail_cons_of_ne {c : Char} {s : List Char} (h : c ≠ '」') :
    closeTail (c :: s) = false := by
  rw [closeTail]
  have : stripLit ['」'] (c :: s) = none := by
    simp only [stripLit]
    rw [if_neg (fun e => h e.symm)]
  rw [this]

theorem closeTail_nil : closeTail [] = false := rfl

theorem greedyFrom_eq_some {r : List Char} {i0 : Nat} (hvalid : splitOk r i0 = true)
    (hmax : ∀ j, i0 < j → splitOk r j = false) :
    ∀ n, i0 ≤ n → greedyFrom r n = some i0 := by
  intro n
  induction n with
  | zero =>
    intro hle
    have h0 : i0 = 0 := Nat.le_zero.mp hle
    rw [h0] at hvalid
    simp [splitOk] at hvalid
  | succ m ih =>
    intro hle
    rcases Nat.lt_or_ge i0 (m + 1) with hlt | hge
    · rw [greedyFrom, hmax (m + 1) hlt]
      simp only [Bool.false_eq_true, if_false]
      exact ih (by omega)
    · have : i0 = m + 1 := by omega
      subst this
      rw [greedyFrom, hvalid]
      simp

theorem mem_of_head?_drop {l : List Char} {n : Nat} {c : Char}
    (h : (l.drop n).head? = some c) : c ∈ l := by
  have : c ∈ l.drop n := by
    cases hd : l.drop n with
    | nil => rw [hd] at h; cases h
    | cons a t =>
      rw [hd] at h
      simp only [List.head?_cons, Option.some.injEq] at h
      subst h
      exact List.mem_cons_self a t
  exact List.drop_subset n l this

theorem close_not_mem_tail {dm : List Char} (h2 : ∀ c ∈ dm, c.isDigit = true) :
    ('」' : Char) ∉ vmB ++ (dm ++ vmC) := by
  intro hmem
  rcases List.mem_append.mp hmem with hB | hrest
  · revert hB; decide
  · rcases List.mem_append.mp hrest with hdm | hC
    · exact ne_of_isDigit (h2 _ hdm) (by decide) rfl
    · revert hC; decide

theorem head_cons_isDigit_false {c0 : Char} (h : c0.isDigit = false) (s : List Char) :
    ∀ c, (c0 :: s).head? = some c → c.isDigit = false := by
  intro c hc
  simp only [List.head?_cons, Option.some.injEq] at hc
  subst hc
  exact h

theorem render_shape (r m : Nat) (t : CommandType) :
    render_vote_message r t m =
      ['<', '@'] ++ (natDigits r ++
        (('>' :: vmA) ++ (t.to_string ++ (vmB ++ (natDigits m ++ vmC))))) := by
  simp [render_vote_message, userMention, List.append_assoc]

theorem matchAt_render (r m : Nat) (t : CommandType) :
    matchAt (render_vote_message r t m) =
      matchTarget (natDigits r) (t.to_string ++ (vmB ++ (natDigits m ++ vmC))) := by
  rw [render_shape]
  unfold matchAt
  rw [stripLit_self]
  simp only []
  rw [show natDigits r ++ (('>' :: vmA) ++ (t.to_string ++ (vmB ++ (natDigits m ++ vmC)))) =
        natDigits r ++ ('>' :: (vmA ++ (t.to_string ++ (vmB ++ (natDigits m ++ vmC)))))
      from by simp,
    matchDigits_spec (natDigits_ne_nil r) (natDigits_all_digit r)
      (head_cons_isDigit_false (by decide) _)]
  simp only []
  rw [show ('>' :: (vmA ++ (t.to_string ++ (vmB ++ (natDigits m ++ vmC))))) =
        ('>' :: vmA) ++ (t.to_string ++ (vmB ++ (natDigits m ++ vmC))) from by simp,
    stripLit_self]

theorem matchTarget_chan (g1 : List Char) (cid m : Nat) :
    matchTarget g1 ((CommandType.MoveTo cid).to_string ++ (vmB ++ (natDigits m ++ vmC))) =
      some ⟨g1, RawTarget.chan (natDigits cid)⟩ := by
  have hbranch : matchChanBranch
      ((CommandType.MoveTo cid).to_string ++ (vmB ++ (natDigits m ++ vmC))) =
      some (RawTarget.chan (natDigits cid)) := by
    unfold matchChanBranch
    rw [show (CommandType.MoveTo cid).to_string ++ (vmB ++ (natDigits m ++ vmC)) =
          ['<', '#'] ++ (natDigits cid ++ ('>' :: (vmB ++ (natDigits m ++ vmC))))
        from by simp [CommandType.to_string],
      stripLit_self]
    simp only []
    rw [matchDigits_spec (natDigits_ne_nil cid) (natDigits_all_digit cid)
      (head_cons_isDigit_false (by decide) _)]
    simp only []
    rw [show ('>' :: (vmB ++ (natDigits m ++ vmC))) = ['>'] ++ (vmB ++ (natDigits m ++ vmC))
        from rfl, stripLit_self]
    simp only [tailOk_digits (natDigits_ne_nil m) (natDigits_all_digit m), if_true]
  unfold matchTarget
  rw [hbranch]

theorem splitOk_of_gt {name rest : List Char} {j : Nat}
    (hrest : ('」' : Char) ∉ rest) (hj : name.length < j) :
    splitOk (name ++ ('」' :: rest)) j = false := by
  unfold splitOk
  rw [if_neg (by omega : ¬ j = 0)]
  have hclose : closeTail ((name ++ ('」' :: rest)).drop j) = false := by
    obtain ⟨k, rfl⟩ : ∃ k, j = name.length + (k + 1) := ⟨j - name.length - 1, by omega⟩
    rw [show (name ++ ('」' :: rest)).drop (name.length + (k + 1)) =
          ('」' :: rest).drop (k + 1) from by simp [List.drop_append],
      List.drop_succ_cons]
    cases hd : (rest.drop k).head? with
    | none =>
      have : rest.drop k = [] := by
        cases he : rest.drop k with
        | nil => rfl
        | cons a t => rw [he] at hd; cases hd
      rw [this]
      exact closeTail_nil
    | some c =>
      have hc : c ∈ rest := mem_of_head?_drop hd
      have hne : c ≠ '」' := fun e => hrest (e ▸ hc)
      cases he : rest.drop k with
      | nil => rw [he] at hd; cases hd
      | cons a t =>
        rw [he] at hd
        simp only [List.head?_cons, Option.some.injEq] at hd
        subst hd
        exact closeTail_cons_of_ne hne
  rw [hclose]
  simp

theorem splitOk_at_name {name rest : List Char} (hn : name ≠ [])
    (hnl : ∀ c ∈ name, c ≠ '\n') (hclose : closeTail ('」' :: rest) = true) :
    splitOk (name ++ ('」' :: rest)) name.length = true := by
  unfold splitOk
  have h0 : ¬ name.length = 0 := by
    cases name with | nil => exact absurd rfl hn | cons => simp
  rw [if_neg h0, List.take_left, List.drop_left]
  rw [if_pos (List.all_eq_true.mpr (fun c hc => decide_eq_true (hnl c hc)))]
  exact hclose

theorem matchNamed_spec {name rest : List Char} (hn : name ≠ [])
    (hnl : ∀ c ∈ name, c ≠ '\n') (hrest : ('」' : Char) ∉ rest)
    (hclose : closeTail ('」' :: rest) = true) :
    matchNamed (name ++ ('」' :: rest)) = some name := by
  unfold matchNamed
  rw [greedyFrom_eq_some (splitOk_at_name hn hnl hclose)
    (fun j hj => splitOk_of_gt hrest hj) _ (by simp)]
  simp only [List.take_left]

theorem matchTarget_named {g1 name : List Char} (m : Nat) (hn : name ≠ [])
    (hnl : ∀ c ∈ name, c ≠ '\n') :
    matchTarget g1 ((CommandType.Move name).to_string ++ (vmB ++ (natDigits m ++ vmC))) =
      some ⟨g1, RawTarget.named name⟩ := by
  have hshape : (CommandType.Move name).to_string ++ (vmB ++ (natDigits m ++ vmC)) =
      kOpen ++ (name ++ ('」' :: (vmB ++ (natDigits m ++ vmC)))) := by
    simp [CommandType.to_string]
  have hchan : matchChanBranch
      ((CommandType.Move name).to_string ++ (vmB ++ (natDigits m ++ vmC))) = none := by
    unfold matchChanBranch
    rw [hshape]
    rw [show kOpen ++ (name ++ ('」' :: (vmB ++ (natDigits m ++ vmC)))) =
          '新' :: ("規VC「".data ++ (name ++ ('」' :: (vmB ++ (natDigits m ++ vmC)))))
        from by simp [kOpen]]
    rw [show stripLit ['<', '#']
          ('新' :: ("規VC「".data ++ (name ++ ('」' :: (vmB ++ (natDigits m ++ vmC)))))) = none
        from by simp [stripLit]]
  have hclose : closeTail ('」' :: (vmB ++ (natDigits m ++ vmC))) = true := by
    unfold closeTail
    rw [show ('」' :: (vmB ++ (natDigits m ++ vmC))) = ['」'] ++ (vmB ++ (natDigits m ++ vmC))
        from rfl, stripLit_self]
    exact tailOk_digits (natDigits_ne_nil m) (natDigits_all_digit m)
  have hnamed : matchNamedBranch
      ((CommandType.Move name).to_string ++ (vmB ++ (natDigits m ++ vmC))) =
      some (RawTarget.named name) := by
    unfold matchNamedBranch
    rw [hshape, stripLit_self]
    simp only []
    rw [matchNamed_spec hn hnl (close_not_mem_tail (natDigits_all_digit m)) hclose]
  unfold matchTarget
  rw [hchan, hnamed]

theorem scanAll_render (r m : Nat) (t : CommandType) {caps : Caps}
    (h : matchAt (render_vote_message r t m) = some caps) :
    scanAll (render_vote_message r t m) = some caps := by
  have hshape := render_shape r m t
  rw [hshape] at h ⊢
  simp only [List.cons_append, List.nil_append] at h ⊢
  rw [scanAll, h]

/-- C1: for every requester id (a `u64`), every timeout in `[1, 120]`, and both
target variants — `MoveTo` of any `u64` channel id, and `Move` of any valid
channel name (nonempty, newline-free) — parsing the rendered poll message
recovers the same requester id and the same tagged target; the timeout is not
required to round-trip. -/
theorem c1_render_parse_round_trip (r : Nat) (hr : r < 2 ^ 64) (m : Nat)
    (hm1 : 1 ≤ m) (hm2 : m ≤ 120) :
    (∀ cid, cid < 2 ^ 64 →
      parseVote (render_vote_message r (CommandType.MoveTo cid) m) =
        some (r, CommandType.MoveTo cid)) ∧
    (∀ name, name ≠ [] → (∀ c ∈ name, c ≠ '\n') →
      parseVote (render_vote_message r (CommandType.Move name) m) =
        some (r, CommandType.Move name)) := by
  constructor
  · intro cid hcid
    have hmatch := matchAt_render r m (CommandType.MoveTo cid)
    rw [matchTarget_chan] at hmatch
    unfold parseVote
    rw [scanAll_render r m _ hmatch]
    simp only [parseU64_natDigits hr]
    simp only [CommandType.parse, capGet2, capGet3, Option.some_bind,
      parseU64_natDigits hcid, Option.map_some']
    simp [Option.orElse]
  · intro name hn hnl
    have hmatch := matchAt_render r m (CommandType.Move name)
    rw [matchTarget_named m hn hnl] at hmatch
    unfold parseVote
    rw [scanAll_render r m _ hmatch]
    simp only [parseU64_natDigits hr]
    simp only [CommandType.parse, capGet2, capGet3, Option.none_bind, Option.map_some']
    simp [Option.orElse]

/-- Witness for `c1_render_parse_round_trip` at a concrete instance. -/
theorem c1_round_trip_witness :
    parseVote (render_vote_message 123 (CommandType.MoveTo 456) 5) =
        some (123, CommandType.MoveTo 456) ∧
    parseVote (render_vote_message 123 (CommandType.Move "部屋".data) 5) =
        some (123, CommandType.Move "部屋".data) :=
  ⟨(c1_render_parse_round_trip 123 (by decide) 5 (by decide) (by decide)).1 456 (by decide),
    (c1_render_parse_round_trip 123 (by decide) 5 (by decide) (by decide)).2 "部屋".data
      (by decide) (by decide)⟩

/-! ### Handler lemmas -/

/-- Symbolic execution of `on_move_reaction` through all its filters: when the
message is the bot's own, carries the marker text, parses, and the reactor is
the parsed requester, the run is the destination resolution followed (on
success) by the migration tail. -/
theorem on_move_reaction_unfold (w : World) (e : Char) (msg : Msg) (caps : Caps)
    (uid gid vc : Nat) (t : CommandType) (ru : List Nat)
    (hmsg : w.message = some msg)
    (hauthor : msg.author = w.current_user_id)
    (hmarker : containsSeq marker msg.content = true)
    (huid : w.reaction_user_id = some uid)
    (hscan : scanAll msg.content = some caps)
    (hg1 : parseU64 caps.g1 = some uid)
    (hct : CommandType.parse (capGet2 caps) (capGet3 caps) = some t)
    (hgid : w.reaction_guild_id = some gid)
    (hcache : w.guild_cached = true)
    (hvs : w.voice_states uid = some (some vc))
    (hru : w.reaction_users = some ru) :
    on_move_reaction w e =
      match resolveDest w uid t with
      | (.error err, eff) => (.error err, eff)
      | (.ok to_channel_id, eff) =>
        let p := finishMove w (ru.filter (fun u => u ≠ w.current_user_id)) uid to_channel_id
        (p.1, eff ++ p.2) := by
  unfold on_move_reaction
  rw [hmsg]
  simp only [hauthor, hmarker, huid, hscan, hg1, hct, hgid, hcache, hvs, hru,
    ne_eq, not_true_eq_false, if_false, Bool.true_eq_false, ite_false, if_true]

/-- C5: a reaction on a message not authored by the bot, or a reaction by a
user other than the requester parsed out of the message body, returns `Ok`
having performed no remote mutation (empty effect trace), so finalization
never happens. -/
theorem c5_foreign_author_or_reactor_no_op (w : World) (e : Char) (msg : Msg)
    (hmsg : w.message = some msg) :
    (msg.author ≠ w.current_user_id → on_move_reaction w e = (.ok (), [])) ∧
    (∀ caps uid mention,
      msg.author = w.current_user_id →
      containsSeq marker msg.content = true →
      w.reaction_user_id = some uid →
      scanAll msg.content = some caps →
      parseU64 caps.g1 = some mention →
      mention ≠ uid →
      on_move_reaction w e = (.ok (), [])) := by
  constructor
  · intro hne
    unfold on_move_reaction
    rw [hmsg]
    simp only [if_pos hne]
  · intro caps uid mention hauthor hmarker huid hscan hg1 hne
    unfold on_move_reaction
    rw [hmsg]
    simp only [hauthor, hmarker, huid, hscan, hg1,
      ne_eq, not_true_eq_false, if_false, Bool.true_eq_false, ite_false, if_true]
    rw [if_pos hne]

theorem resolveDest_moveTo_ok (w : World) (uid cid : Nat) (ch : ChanInfo)
    (hch : w.channels cid = some (some ch))
    (hperm : w.perm_fetch uid cid = some true) :
    resolveDest w uid (CommandType.MoveTo cid) = (.ok cid, []) := by
  unfold resolveDest
  simp only []
  rw [hch]
  simp only [hperm]

theorem resolveDest_move_ignored (w : World) (uid vcid : Nat) (name : List Char)
    (hmf : w.member_fetch_ok uid = true)
    (hmove : w.move_ok uid w.config.vc_create_channel = true)
    (hga : w.guild_cached_after = true)
    (hvsa : w.voice_states_after uid = some (some vcid))
    (hig : w.config.vc_ignored_channels.contains vcid = true) :
    resolveDest w uid (CommandType.Move name) =
      (.error HandlerErr.ignoredChannel,
        [Effect.moveMember uid w.config.vc_create_channel,
          Effect.sleep w.config.move_wait_seconds]) := by
  unfold resolveDest
  simp only []
  simp only [hmf, hmove, hga, hvsa, hig, not_true_eq_false, Bool.true_eq_false, if_false,
    ite_false, if_true, ite_true]
  simp

theorem resolveDest_move_wrong_category (w : World) (uid vcid : Nat) (name : List Char)
    (ch : ChanInfo)
    (hmf : w.member_fetch_ok uid = true)
    (hmove : w.move_ok uid w.config.vc_create_channel = true)
    (hga : w.guild_cached_after = true)
    (hvsa : w.voice_states_after uid = some (some vcid))
    (hig : w.config.vc_ignored_channels.contains vcid = false)
    (hch : w.channels vcid = some (some ch))
    (hpar : ch.parent_id ≠ some w.config.vc_category) :
    resolveDest w uid (CommandType.Move name) =
      (.error HandlerErr.wrongCategory,
        [Effect.moveMember uid w.config.vc_create_channel,
          Effect.sleep w.config.move_wait_seconds]) := by
  unfold resolveDest
  simp only []
  simp only [hmf, hmove, hga, hvsa, hig, hch, not_true_eq_false, Bool.true_eq_false, if_false,
    Bool.false_eq_true, ite_false, if_true, ite_true]
  rw [if_pos hpar]
  simp

theorem resolveDest_move_ok (w : World) (uid vcid : Nat) (name : List Char) (ch : ChanInfo)
    (hmf : w.member_fetch_ok uid = true)
    (hmove : w.move_ok uid w.config.vc_create_channel = true)
    (hga : w.guild_cached_after = true)
    (hvsa : w.voice_states_after uid = some (some vcid))
    (hig : w.config.vc_ignored_channels.contains vcid = false)
    (hch : w.channels vcid = some (some ch))
    (hpar : ch.parent_id = some w.config.vc_category)
    (hren : w.rename_ok = true) :
    resolveDest w uid (CommandType.Move name) =
      (.ok vcid,
        [Effect.moveMember uid w.config.vc_create_channel,
          Effect.sleep w.config.move_wait_seconds,
          Effect.rename vcid name]) := by
  unfold resolveDest
  simp only []
  simp only [hmf, hmove, hga, hvsa, hig, hch, hpar, hren, not_true_eq_false, Bool.true_eq_false,
    if_false, Bool.false_eq_true, ite_false, if_true, ite_true, ne_eq, not_not]
  simp

/-- C7: the migration tail issues exactly one relocation attempt per member of
the computed vote set (the marker reactors that still have a voice state in
the original snapshot), in list order, all before the deletion and the
summary; and the whole run is independent of which individual relocations the
platform accepts — a member's failure aborts nothing and is never retried. -/
theorem c7_one_attempt_per_member_failure_isolated (w : World) (ru : List Nat)
    (mention_user to_channel_id : Nat)
    (hfetch : (ru.filter (fun u => (w.voice_states u).isSome)).all w.member_fetch_ok = true)
    (hdel : w.delete_ok = true) (hsend : w.send_ok = true) :
    finishMove w ru mention_user to_channel_id =
      (.ok (),
        (ru.filter (fun u => (w.voice_states u).isSome)).map
          (fun u => Effect.moveMember u to_channel_id) ++
        [Effect.deleteMsg,
          Effect.sendSummary mention_user
            (usizeSub (ru.filter (fun u => (w.voice_states u).isSome)).length 1)
            to_channel_id (ru.filter (fun u => (w.voice_states u).isSome))]) ∧
    (∀ mok, finishMove { w with move_ok := mok } ru mention_user to_channel_id =
      finishMove w ru mention_user to_channel_id) := by
  constructor
  · unfold finishMove
    simp only [hfetch, hdel, hsend, not_true_eq_false, Bool.true_eq_false, if_false, ite_false,
      if_true, ite_true]
    simp [List.append_assoc]
  · intro mok
    rfl

/-- Witness for `c7_one_attempt_per_member_failure_isolated`. -/
theorem c7_witness :
    finishMove
        { current_user_id := 99, message := none, reaction_user_id := none,
          reaction_guild_id := none, guild_cached := true,
          voice_states := fun u => if u = 1 ∨ u = 2 then some (some 20) else none,
          reaction_users := none, channels := fun _ => none, perm_fetch := fun _ _ => none,
          member_fetch_ok := fun _ => true, move_ok := fun _ _ => false,
          guild_cached_after := true, voice_states_after := fun _ => none,
          rename_ok := true, delete_ok := true, send_ok := true,
          config := ⟨5, 3, 30, 40, [31]⟩ } [1, 2, 5] 1 7 =
      (.ok (),
        [Effect.moveMember 1 7, Effect.moveMember 2 7, Effect.deleteMsg,
          Effect.sendSummary 1 1 7 [1, 2]]) := by
  rw [(c7_one_attempt_per_member_failure_isolated _ [1, 2, 5] 1 7 (by decide) rfl rfl).1]
  rfl

/-- C3 (code bug): the handler never inspects the reaction's glyph.  A 👍
reaction by the requester on the bot's valid poll message runs the full
finalization — members are migrated and the poll message is deleted — even
though the glyph is not the designated 🤚 marker. -/
theorem c3_non_marker_glyph_still_finalizes :
    on_move_reaction wBase '👍' =
      (.ok (), [Effect.moveMember 1 7, Effect.moveMember 2 7, Effect.moveMember 3 7,
        Effect.deleteMsg, Effect.sendSummary 1 2 7 [1, 2, 3]]) := rfl

/-- C9: with the requester's reaction gone by the time the reactor list is
fetched and no other reactor in voice, the member list at the summary step is
empty and the `members.len() - 1` of the summary underflows: the reported
count is `2 ^ 64 - 1`, not zero. -/
theorem c9_summary_count_underflow :
    on_move_reaction { wBase with reaction_users := some [] } '🤚' =
      (.ok (), [Effect.deleteMsg, Effect.sendSummary 1 (2 ^ 64 - 1) 7 []]) ∧
    (2 ^ 64 - 1 : Nat) ≠ 0 :=
  ⟨rfl, by decide⟩

/-- C10 counterexample: a second finalize trigger that arrives after the poll
message is gone does not observe a retired poll and no-op cleanly — the
message fetch fails, the handler returns an error, and `reaction_add` logs
it as a failure. -/
theorem c10_counterexample_second_trigger_errors :
    on_move_reaction { wBase with message := none } '🤚' =
      (.error HandlerErr.messageFetchFailed, []) ∧
    reaction_add { wBase with message := none } '🤚' =
      ([], some HandlerErr.messageFetchFailed) :=
  ⟨rfl, rfl⟩

/-- C10 (amended): there is no completion flag; the only protection after the
poll message is deleted is that a later trigger fails its message fetch: it
performs no migration and no deletion (empty effect trace) but surfaces an
error to the log instead of no-opping cleanly. -/
theorem c10_amended_post_deletion_trigger (w : World) (e : Char) (h : w.message = none) :
    on_move_reaction w e = (.error HandlerErr.messageFetchFailed, []) := by
  unfold on_move_reaction
  rw [h]

/-- Witness for `c10_amended_post_deletion_trigger`. -/
theorem c10_amended_witness :
    on_move_reaction { wBase with message := none } '👌' =
      (.error HandlerErr.messageFetchFailed, []) :=
  c10_amended_post_deletion_trigger { wBase with message := none } '👌' rfl

/-- C2 counterexample: a `move "部屋"` finalize whose post-settle policy check
fails (claimed room 22 lies outside category 40) returns an error after the
requester was already moved to the staging room, and the poll message is not
deleted — the effect trace is exactly the staging move and the settle sleep. -/
theorem c2_counterexample_policy_failure_keeps_message :
    on_move_reaction wC2 '🤚' =
      (.error HandlerErr.wrongCategory, [Effect.moveMember 1 30, Effect.sleep 3]) ∧
    Effect.deleteMsg ∉ [Effect.moveMember 1 30, Effect.sleep 3] ∧
    Effect.moveMember 1 30 ∈ [Effect.moveMember 1 30, Effect.sleep 3] :=
  ⟨rfl, by decide, by decide⟩

/-- C2 (amended): when the post-settle resolution fails — the claimed room is
ignored, or its parent category is wrong — the finalize aborts before any
rename and before any bulk migration, but after the requester's staging move;
the failure is returned as an error (which `reaction_add` only logs), and the
poll message is not deleted: the whole effect trace is the staging move plus
the settle sleep. -/
theorem c2_amended_policy_failure_aborts (w : World) (e : Char) (msg : Msg) (caps : Caps)
    (uid gid vc : Nat) (ru : List Nat) (name : List Char) (vcid : Nat)
    (hmsg : w.message = some msg)
    (hauthor : msg.author = w.current_user_id)
    (hmarker : containsSeq marker msg.content = true)
    (huid : w.reaction_user_id = some uid)
    (hscan : scanAll msg.content = some caps)
    (hg1 : parseU64 caps.g1 = some uid)
    (hct : CommandType.parse (capGet2 caps) (capGet3 caps) = some (CommandType.Move name))
    (hgid : w.reaction_guild_id = some gid)
    (hcache : w.guild_cached = true)
    (hvs : w.voice_states uid = some (some vc))
    (hru : w.reaction_users = some ru)
    (hmf : w.member_fetch_ok uid = true)
    (hmove : w.move_ok uid w.config.vc_create_channel = true)
    (hga : w.guild_cached_after = true)
    (hvsa : w.voice_states_after uid = some (some vcid)) :
    (w.config.vc_ignored_channels.contains vcid = true →
      on_move_reaction w e =
        (.error HandlerErr.ignoredChannel,
          [Effect.moveMember uid w.config.vc_create_channel,
            Effect.sleep w.config.move_wait_seconds])) ∧
    (∀ ch : ChanInfo, w.config.vc_ignored_channels.contains vcid = false →
      w.channels vcid = some (some ch) →
      ch.parent_id ≠ some w.config.vc_category →
      on_move_reaction w e =
        (.error HandlerErr.wrongCategory,
          [Effect.moveMember uid w.config.vc_create_channel,
            Effect.sleep w.config.move_wait_seconds])) := by
  constructor
  · intro hig
    rw [on_move_reaction_unfold w e msg caps uid gid vc (CommandType.Move name) ru
      hmsg hauthor hmarker huid hscan hg1 hct hgid hcache hvs hru,
      resolveDest_move_ignored w uid vcid name hmf hmove hga hvsa hig]
  · intro ch hig hch hpar
    rw [on_move_reaction_unfold w e msg caps uid gid vc (CommandType.Move name) ru
      hmsg hauthor hmarker huid hscan hg1 hct hgid hcache hvs hru,
      resolveDest_move_wrong_category w uid vcid name ch hmf hmove hga hvsa hig hch hpar]

/-- Witness for `c2_amended_policy_failure_aborts` at the `wC2` scenario. -/
theorem c2_amended_witness :
    on_move_reaction wC2 '🤚' =
      (.error HandlerErr.wrongCategory, [Effect.moveMember 1 30, Effect.sleep 3]) :=
  (c2_amended_policy_failure_aborts wC2 '🤚' ⟨99, contentMove⟩
      ⟨['1'], RawTarget.named "部屋".data⟩ 1 50 20 [1, 2, 3] "部屋".data 22
      rfl rfl (by decide) rfl (by decide) (by decide) (by decide) rfl rfl rfl rfl rfl rfl rfl
      rfl).2 ⟨some 99⟩ (by decide) rfl (by decide)

/-- C4 counterexample: a finalize whose deletion step fails after the
relocations already ran does not post the summary — the run stops with
`deleteFailed` and the effect trace ends at the deletion attempt, with no
`sendSummary` in it. -/
theorem c4_counterexample_delete_failure_suppresses_summary :
    on_move_reaction { wBase with delete_ok := false } '🤚' =
      (.error HandlerErr.deleteFailed,
        [Effect.moveMember 1 7, Effect.moveMember 2 7, Effect.moveMember 3 7,
          Effect.deleteMsg]) ∧
    Effect.sendSummary 1 2 7 [1, 2, 3] ∉
      [Effect.moveMember 1 7, Effect.moveMember 2 7, Effect.moveMember 3 7,
        Effect.deleteMsg] :=
  ⟨rfl, by decide⟩

/-- C4 (amended): in the timeout path a failed deletion is indeed only
logged — the spawned task sleeps, attempts the deletion once and has no error
channel at all, logging exactly when the deletion failed.  In the finalize
path, however, a failed deletion aborts the handler with `deleteFailed`
*before* the summary: the relocations are already in the trace but success is
not reported. -/
theorem c4_amended_delete_failure_paths (minutes : Nat) (dok : Bool) (w : World)
    (ru : List Nat) (mention_user to_channel_id : Nat)
    (hfetch : (ru.filter (fun u => (w.voice_states u).isSome)).all w.member_fetch_ok = true)
    (hdel : w.delete_ok = false) :
    (timeout_delete_task minutes dok).1 = [Effect.sleep (60 * minutes), Effect.deleteMsg] ∧
    ((timeout_delete_task minutes dok).2 = none ↔ dok = true) ∧
    finishMove w ru mention_user to_channel_id =
      (.error HandlerErr.deleteFailed,
        (ru.filter (fun u => (w.voice_states u).isSome)).map
          (fun u => Effect.moveMember u to_channel_id) ++ [Effect.deleteMsg]) := by
  refine ⟨rfl, ?_, ?_⟩
  · cases dok <;> simp [timeout_delete_task]
  · unfold finishMove
    simp only [hfetch, hdel, not_true_eq_false, Bool.true_eq_false, if_false, ite_false,
      if_true, ite_true, not_false_eq_true]
    simp

/-- Witness for `c4_amended_delete_failure_paths`. -/
theorem c4_amended_witness :
    (timeout_delete_task 5 false).1 = [Effect.sleep 300, Effect.deleteMsg] ∧
    ((timeout_delete_task 5 false).2 = none ↔ false = true) ∧
    finishMove { wBase with delete_ok := false } [1, 2, 3] 1 7 =
      (.error HandlerErr.deleteFailed,
        [Effect.moveMember 1 7, Effect.moveMember 2 7, Effect.moveMember 3 7,
          Effect.deleteMsg]) := by
  have h := c4_amended_delete_failure_paths 5 false { wBase with delete_ok := false }
    [1, 2, 3] 1 7 (by decide) rfl
  exact ⟨h.1, h.2.1, h.2.2.trans (by rfl)⟩

/-- C6 counterexample: user 3's relocation attempt fails in `wBase`, yet the
posted summary lists members `[1, 2, 3]` — the failed member is *not* omitted
from the listed members. -/
theorem c6_counterexample_failed_member_listed :
    wBase.move_ok 3 7 = false ∧
    on_move_reaction wBase '🤚' =
      (.ok (), [Effect.moveMember 1 7, Effect.moveMember 2 7, Effect.moveMember 3 7,
        Effect.deleteMsg, Effect.sendSummary 1 2 7 [1, 2, 3]]) ∧
    (3 : Nat) ∈ [1, 2, 3] :=
  ⟨rfl, rfl, by decide⟩

/-- C6 (amended): the summary posted after migration lists the requester's
mention together with *every* member of the computed list (marker reactors
with a voice state), regardless of whether their relocation succeeded: a
member whose relocation attempt fails still appears in the listed members. -/
theorem c6_amended_summary_lists_attempted (w : World) (ru : List Nat)
    (mention_user to_channel_id b : Nat)
    (hfetch : (ru.filter (fun u => (w.voice_states u).isSome)).all w.member_fetch_ok = true)
    (hdel : w.delete_ok = true)
    (hb : b ∈ ru.filter (fun u => (w.voice_states u).isSome))
    (hbfail : w.move_ok b to_channel_id = false) :
    Effect.sendSummary mention_user
        (usizeSub (ru.filter (fun u => (w.voice_states u).isSome)).length 1) to_channel_id
        (ru.filter (fun u => (w.voice_states u).isSome)) ∈
      (finishMove w ru mention_user to_channel_id).2 ∧
    b ∈ ru.filter (fun u => (w.voice_states u).isSome) := by
  refine ⟨?_, hb⟩
  unfold finishMove
  simp only [hfetch, hdel, not_true_eq_false, Bool.true_eq_false, if_false, ite_false,
    if_true, ite_true]
  cases hsend : w.send_ok <;> simp [List.mem_append]

/-- Witness for `c6_amended_summary_lists_attempted`. -/
theorem c6_amended_witness :
    Effect.sendSummary 1 (usizeSub ([1, 2, 3].filter
        (fun u => (wBase.voice_states u).isSome)).length 1) 7
      ([1, 2, 3].filter (fun u => (wBase.voice_states u).isSome)) ∈
      (finishMove wBase [1, 2, 3] 1 7).2 ∧
    (3 : Nat) ∈ [1, 2, 3].filter (fun u => (wBase.voice_states u).isSome) :=
  c6_amended_summary_lists_attempted wBase [1, 2, 3] 1 7 3 (by decide) rfl (by decide) rfl

/-- Witness for `c5_foreign_author_or_reactor_no_op`: a poll message authored
by user 50 (not the bot), and a reaction by user 2 on the bot's poll whose
parsed requester is user 1 — both runs end `Ok` with an empty trace. -/
theorem c5_witness :
    on_move_reaction { wBase with message := some ⟨50, contentMoveTo⟩ } '🤚' = (.ok (), []) ∧
    on_move_reaction { wBase with reaction_user_id := some 2 } '🤚' = (.ok (), []) :=
  ⟨(c5_foreign_author_or_reactor_no_op { wBase with message := some ⟨50, contentMoveTo⟩ } '🤚'
      ⟨50, contentMoveTo⟩ rfl).1 (by decide),
    (c5_foreign_author_or_reactor_no_op { wBase with reaction_user_id := some 2 } '🤚'
      ⟨99, contentMoveTo⟩ rfl).2 ⟨['1'], RawTarget.chan ['7']⟩ 2 1 rfl (by decide) rfl
      (by decide) (by decide) (by decide)⟩

/-- C8: finalizing a `Move` (new-room) poll performs, in order: the staging
move of the requester alone into the configured creation channel, the settle
sleep, the re-read of the requester's room (`vcid` below), the ignore-list
and category checks, the rename of that room to the requested name — and only
then the migration tail with that room as destination. -/
theorem c8_new_room_finalize_steps (w : World) (e : Char) (msg : Msg) (caps : Caps)
    (uid gid vc : Nat) (ru : List Nat) (name : List Char) (vcid : Nat) (ch : ChanInfo)
    (hmsg : w.message = some msg)
    (hauthor : msg.author = w.current_user_id)
    (hmarker : containsSeq marker msg.content = true)
    (huid : w.reaction_user_id = some uid)
    (hscan : scanAll msg.content = some caps)
    (hg1 : parseU64 caps.g1 = some uid)
    (hct : CommandType.parse (capGet2 caps) (capGet3 caps) = some (CommandType.Move name))
    (hgid : w.reaction_guild_id = some gid)
    (hcache : w.guild_cached = true)
    (hvs : w.voice_states uid = some (some vc))
    (hru : w.reaction_users = some ru)
    (hmf : w.member_fetch_ok uid = true)
    (hmove : w.move_ok uid w.config.vc_create_channel = true)
    (hga : w.guild_cached_after = true)
    (hvsa : w.voice_states_after uid = some (some vcid))
    (hig : w.config.vc_ignored_channels.contains vcid = false)
    (hch : w.channels vcid = some (some ch))
    (hpar : ch.parent_id = some w.config.vc_category)
    (hren : w.rename_ok = true) :
    on_move_reaction w e =
      ((finishMove w (ru.filter (fun u => u ≠ w.current_user_id)) uid vcid).1,
        Effect.moveMember uid w.config.vc_create_channel ::
          Effect.sleep w.config.move_wait_seconds ::
            Effect.rename vcid name ::
              (finishMove w (ru.filter (fun u => u ≠ w.current_user_id)) uid vcid).2) := by
  rw [on_move_reaction_unfold w e msg caps uid gid vc (CommandType.Move name) ru
    hmsg hauthor hmarker huid hscan hg1 hct hgid hcache hvs hru,
    resolveDest_move_ok w uid vcid name ch hmf hmove hga hvsa hig hch hpar hren]
  simp

/-- Witness for `c8_new_room_finalize_steps` at the `wC8` scenario. -/
theorem c8_witness :
    on_move_reaction wC8 '🤚' =
      (.ok (), [Effect.moveMember 1 30, Effect.sleep 3, Effect.rename 21 "部屋".data,
        Effect.moveMember 1 21, Effect.moveMember 2 21, Effect.moveMember 3 21,
        Effect.deleteMsg, Effect.sendSummary 1 2 21 [1, 2, 3]]) := by
  rw [c8_new_room_finalize_steps wC8 '🤚' ⟨99, contentMove⟩
    ⟨['1'], RawTarget.named "部屋".data⟩ 1 50 20 [1, 2, 3] "部屋".data 21 ⟨some 40⟩
    rfl rfl (by decide) rfl (by decide) (by decide) (by decide) rfl rfl rfl rfl rfl rfl rfl
    rfl (by decide) rfl rfl rfl]
  rfl
